import Mathlib

/-!
Verification development for the candlestick_retriever repository.

The repository incrementally downloads candlestick (kline) records per trading
pair from a paginated API (`gather_new_candles` / `get_batch`), cleans them
(`quick_clean`, `polish_df`, `set_dtypes_compressed`, `assert_integrity` in
`preprocessing.py`) and merges them with the per-pair parquet dataset
(`append_raw_to_parquet`, `get_parquet_info`, `write_to_parquet`,
`all_candles_to_parquet` in `main.py` / `fetch_candlesticks.py`).

This file is a shallow embedding of those functions.  A raw API row is `Row`
(the twelve columns of `LABELS`); a persisted row is `PRow` (after the
`close_time` / `ignore` columns are dropped and dtypes are compressed).
Timestamps are epoch milliseconds, modelled as `Nat`; the signed subtraction
performed by the malformed-candle filter is modelled in `Int`, exactly as the
pandas expression does it.  Float narrowing (float64 to float32) carries no
content for the properties below and is modelled as the identity; the uint16
narrowing of `number_of_trades` is modelled as reduction mod 2^16, which is
numpy's cast semantics for non-negative integers.
-/

namespace CandlestickRetriever

/-- One raw row of a fetched batch: the twelve columns of `LABELS` in
`main.py`, in source order.  `open_time` and `close_time` are epoch
milliseconds; `number_of_trades` is a count.  The source column named `open`
is called `open_` here because `open` is a Lean keyword.  Value columns whose
numeric contents never influence the verified properties are modelled as
`Int`. -/
structure Row where
  open_time : Nat
  open_ : Int
  high : Int
  low : Int
  close : Int
  volume : Int
  close_time : Nat
  quote_asset_volume : Int
  number_of_trades : Nat
  taker_buy_base_asset_volume : Int
  taker_buy_quote_asset_volume : Int
  ignore : Int
deriving DecidableEq, Repr

/-- One persisted row, i.e. the schema written by `polish_df`:
`close_time` and `ignore` are gone and `number_of_trades` has been narrowed
to uint16 (`set_dtypes_compressed`). -/
structure PRow where
  open_time : Nat
  open_ : Int
  high : Int
  low : Int
  close : Int
  volume : Int
  quote_asset_volume : Int
  number_of_trades : Nat
  taker_buy_base_asset_volume : Int
  taker_buy_quote_asset_volume : Int
deriving DecidableEq, Repr

/-- `preprocessing.set_dtypes_compressed` together with the column drop done
just before it in `polish_df`: drops `close_time` and `ignore`, keeps the
remaining columns, and casts `number_of_trades` to uint16, which for a
non-negative count is reduction modulo 2^16.  The float64-to-float32 casts
are modelled as the identity (no verified property reads those values). -/
def set_dtypes_compressed (r : Row) : PRow :=
  { open_time := r.open_time
    open_ := r.open_
    high := r.high
    low := r.low
    close := r.close
    volume := r.volume
    quote_asset_volume := r.quote_asset_volume
    number_of_trades := r.number_of_trades % 65536
    taker_buy_base_asset_volume := r.taker_buy_base_asset_volume
    taker_buy_quote_asset_volume := r.taker_buy_quote_asset_volume }

/-- `preprocessing.polish_df`.  In source order: keep only rows where
`open_time - close_time != -59999` is false (i.e. the signed difference is
exactly -59999 ms, a full one-minute candle); drop the `close_time` and
`ignore` columns and compress dtypes; finally, if `SHAVE_OFF_TODAY` (the
`shave` argument here), drop rows whose `open_time` is not strictly before
the start of the current day (`todayStart`, epoch ms of today's midnight). -/
def polish_df (todayStart : Nat) (shave : Bool) (df : List Row) : List PRow :=
  let kept := df.filter fun r =>
    decide ((r.open_time : Int) - (r.close_time : Int) = -59999)
  let compressed := kept.map set_dtypes_compressed
  if shave then compressed.filter fun p => decide (p.open_time < todayStart)
  else compressed

/-- Whether some `open_time` value occurs twice in the dataframe, i.e.
`df['open_time'].duplicated().any()`. -/
def hasDupOT : List Row → Bool
  | [] => false
  | r :: rest => (rest.any fun x => x.open_time == r.open_time) || hasDupOT rest

/-- `df[df['open_time'].duplicated() == False]`: keep the first row for each
`open_time`, preserving order.  `seen` is the set of keys already kept. -/
def dropDupOT (seen : List Nat) : List Row → List Row
  | [] => []
  | r :: rest =>
    if r.open_time ∈ seen then dropDupOT seen rest
    else r :: dropDupOT (r.open_time :: seen) rest

/-- `preprocessing.quick_clean`.  Drops duplicate `open_time` rows (first
occurrence wins) when any exist.  The source then computes
`df.sort_values(by=['open_time'], ascending=False)` but never assigns the
result, so the row order is left unchanged; that no-op is therefore absent
here.  Finally `assert_integrity` runs: on fully populated rows (the only
rows representable by `Row`) its n/a check cannot fire, so only the duplicate
`open_time` assertion remains; an assertion failure is `none`. -/
def quick_clean (df : List Row) : Option (List Row) :=
  let d := if hasDupOT df then dropDupOT [] df else df
  if hasDupOT d then none else some d

/-- The on-disk state of a per-pair parquet file: absent (FileNotFoundError,
an OSError), present but unreadable (any other OSError, e.g. truncated or
corrupt), or readable with contents `d`. -/
inductive ParquetFile where
  | absent : ParquetFile
  | unreadable : ParquetFile
  | ok : List PRow → ParquetFile
deriving DecidableEq, Repr

/-- Maximum `open_time` of a persisted dataset (`existing_data.index.max()`),
0 for the empty list. -/
def maxOpen : List PRow → Nat
  | [] => 0
  | p :: rest => max p.open_time (maxOpen rest)

/-- `main.get_parquet_info` (same logic in `fetch_candlesticks.py`): read the
file; on any `OSError` fall through with `(0, 0)`; if the file is readable
and non-empty return its maximum `open_time` and its row count. -/
def get_parquet_info : ParquetFile → Nat × Nat
  | ParquetFile.absent => (0, 0)
  | ParquetFile.unreadable => (0, 0)
  | ParquetFile.ok d => if d = [] then (0, 0) else (maxOpen d, d.length)

/-- `preprocessing.append_raw_to_parquet`: polish the new rows, then try to
concatenate the existing file contents in front of them; any `OSError`
while reading the existing file is swallowed and only the polished new rows
are written. -/
def append_raw_to_parquet (todayStart : Nat) (shave : Bool) (df : List Row) :
    ParquetFile → List PRow
  | ParquetFile.ok e => e ++ polish_df todayStart shave df
  | _ => polish_df todayStart shave df

/-- `preprocessing.write_raw_to_parquet`: polish and overwrite, ignoring any
previous contents. -/
def write_raw_to_parquet (todayStart : Nat) (shave : Bool) (df : List Row) :
    List PRow :=
  polish_df todayStart shave df

/-- The upstream klines endpoint as consumed by `get_batch`: given
`startTime` and `limit` it returns the first `limit` candles whose
`open_time` is at least `startTime`, in ascending order (the upstream
history `upstream` is kept sorted by `open_time`).  The cooldown-and-retry
handling of transient transport errors in `get_batch` is invisible at this
level: the retried call returns the same batch. -/
def get_batch (upstream : List Row) (startTime limit : Nat) : List Row :=
  (upstream.filter fun r => decide (startTime ≤ r.open_time)).take limit

/-- Maximum of the `open_time` column of a batch
(`new_batch['open_time'].max()`), 0 for an empty batch (never taken on an
empty batch in the loop below). -/
def batchMax : List Row → Nat
  | [] => 0
  | r :: rest => max r.open_time (batchMax rest)

/-- `gather_new_candles` (`main.py` and `fetch_candlesticks.py`): starting
from the cursor `last` (the last persisted `open_time`, or 0), repeatedly
fetch a batch at `last + 1`.  Stop (converged) when a batch comes back empty
or when its maximum `open_time` equals the previous cursor; otherwise
accumulate the batch, advance the cursor to the batch maximum and continue.
Returns the concatenation of the accumulated batches together with the
number of `get_batch` calls performed.  `fuel` bounds the number of loop
iterations so that the function is total; `none` means the fuel ran out
before the loop converged. -/
def gather_new_candles (upstream : List Row) (limit : Nat) :
    Nat → Nat → Option (List Row × Nat)
  | 0, _ => none
  | fuel + 1, last =>
    let batch := get_batch upstream (last + 1) limit
    if batch = [] then some ([], 1)
    else
      let m := batchMax batch
      if m = last then some ([], 1)
      else
        match gather_new_candles upstream limit fuel m with
        | none => none
        | some (acc, steps) => some (batch ++ acc, steps + 1)

/-- Number of upstream candles strictly beyond the cursor `c`: the
`history_size` of the convergence bound. -/
def histSize (upstream : List Row) (c : Nat) : Nat :=
  (upstream.filter fun r => decide (c < r.open_time)).length

/-- One full per-pair run of `main.all_candles_to_parquet` with
`CIRCUMVENT_CSV` (read cursor, gather, `write_to_parquet` with
`append=True`): returns the persisted dataset after the run and the value
`write_to_parquet` returns, namely the row count of the quick-cleaned new
data, which `main` reports as the number of new candles ("already up to
date" when 0).  `none` models a run that does not complete (fuel exhausted
in the pagination loop, or `assert_integrity` failing). -/
def all_candles_to_parquet (fuel todayStart : Nat) (shave : Bool)
    (limit : Nat) (upstream : List Row) (stored : ParquetFile) :
    Option (List PRow × Nat) :=
  let info := get_parquet_info stored
  match gather_new_candles upstream limit fuel info.1 with
  | none => none
  | some (newRows, _steps) =>
    match quick_clean newRows with
    | none => none
    | some cleaned =>
      some (append_raw_to_parquet todayStart shave cleaned stored, cleaned.length)

/-- `main.write_to_csv`: if there are any batches (there always is at least
the initial empty one), quick-clean their concatenation, append it to the
csv file, and return `len(df.index) - old_lines` where `df` holds only the
new rows and `old_lines` is the pre-run row count of the file.  The value is
signed in the source (plain ints), hence `Int` here; `none` models an
`assert_integrity` failure. -/
def write_to_csv_count (batches : List (List Row)) (old_lines : Nat) :
    Option Int :=
  if 0 < batches.length then
    (quick_clean batches.flatten).map fun d => (d.length : Int) - (old_lines : Int)
  else some 0

/-- A raw dataframe row as `assert_integrity` sees it: every one of the
twelve columns may be n/a (`none`).  Only needed to state what the n/a check
in `assert_integrity` actually tests. -/
structure NRow where
  open_time : Option Nat
  open_ : Option Int
  high : Option Int
  low : Option Int
  close : Option Int
  volume : Option Int
  close_time : Option Nat
  quote_asset_volume : Option Int
  number_of_trades : Option Nat
  taker_buy_base_asset_volume : Option Int
  taker_buy_quote_asset_volume : Option Int
  ignore : Option Int
deriving DecidableEq, Repr

/-- `row.isna().all()`: every column of the row is n/a. -/
def rowAllNull (r : NRow) : Bool :=
  r.open_time.isNone && r.open_.isNone && r.high.isNone && r.low.isNone &&
  r.close.isNone && r.volume.isNone && r.close_time.isNone &&
  r.quote_asset_volume.isNone && r.number_of_trades.isNone &&
  r.taker_buy_base_asset_volume.isNone &&
  r.taker_buy_quote_asset_volume.isNone && r.ignore.isNone

/-- `row.isna().any()`: at least one column of the row is n/a. -/
def rowAnyNull (r : NRow) : Bool :=
  r.open_time.isNone || r.open_.isNone || r.high.isNone || r.low.isNone ||
  r.close.isNone || r.volume.isNone || r.close_time.isNone ||
  r.quote_asset_volume.isNone || r.number_of_trades.isNone ||
  r.taker_buy_base_asset_volume.isNone ||
  r.taker_buy_quote_asset_volume.isNone || r.ignore.isNone

/-- `df['open_time'].duplicated().any()` over nullable rows; pandas treats
n/a as equal to n/a when marking duplicates, which `Option` equality
matches. -/
def hasDupOTN : List NRow → Bool
  | [] => false
  | r :: rest => (rest.any fun x => x.open_time == r.open_time) || hasDupOTN rest

/-- `preprocessing.assert_integrity`: `true` when both assertions pass.  The
first assertion is literally `df.isna().all(axis=1).any() == False`: it
fires only when some row is n/a in EVERY column.  The second rejects
duplicated `open_time` values. -/
def assert_integrity (df : List NRow) : Bool :=
  !(df.any rowAllNull) && !(hasDupOTN df)

/-- `open_time` values are strictly increasing along the list (sorted
ascending with no duplicates). -/
def strictlyAscOT : List Row → Bool
  | [] => true
  | [_] => true
  | a :: b :: rest => (a.open_time < b.open_time) && strictlyAscOT (b :: rest)

/-- A sample raw row: `open_time = t`, `close_time = ct`,
`number_of_trades = n`, every other column 0. -/
def rowAt (t ct n : Nat) : Row :=
  { open_time := t, open_ := 0, high := 0, low := 0, close := 0, volume := 0
    close_time := ct, quote_asset_volume := 0, number_of_trades := n
    taker_buy_base_asset_volume := 0, taker_buy_quote_asset_volume := 0
    ignore := 0 }

/-- The maximum of the `open_time` column bounds every element of a batch. -/
lemma batchMax_ge {l : List Row} {r : Row} (h : r ∈ l) :
    r.open_time ≤ batchMax l := by
  induction l with
  | nil => cases h
  | cons a t ih =>
    rcases List.mem_cons.mp h with rfl | h'
    · exact Nat.le_max_left _ _
    · exact Nat.le_trans (ih h') (Nat.le_max_right _ _)

/-- If every `open_time` in a batch is below `v` (and `v` is positive, to
cover the empty batch), so is the batch maximum. -/
lemma batchMax_lt {l : List Row} {v : Nat} (hv : 0 < v)
    (h : ∀ x ∈ l, x.open_time < v) : batchMax l < v := by
  induction l with
  | nil => simpa [batchMax] using hv
  | cons a t ih =>
    have h1 : a.open_time < v := h a (List.mem_cons_self a t)
    have h2 : batchMax t < v := ih fun x hx => h x (List.mem_cons_of_mem a hx)
    simpa [batchMax, Nat.max_lt] using And.intro h1 h2

/-- Filtering "strictly beyond `m`" out of a list split into a part bounded
by `m` and a part strictly above `m` returns exactly the second part. -/
lemma filter_between (t d : List Row) (m : Nat)
    (h1 : ∀ r ∈ t, r.open_time ≤ m) (h2 : ∀ r ∈ d, m < r.open_time) :
    (t ++ d).filter (fun r => decide (m + 1 ≤ r.open_time)) = d := by
  rw [List.filter_append]
  have e1 : t.filter (fun r => decide (m + 1 ≤ r.open_time)) = [] := by
    rw [List.filter_eq_nil_iff]
    intro r hr
    have := h1 r hr
    simp only [decide_eq_true_eq]
    omega
  have e2 : d.filter (fun r => decide (m + 1 ≤ r.open_time)) = d := by
    rw [List.filter_eq_self]
    intro r hr
    have := h2 r hr
    simp only [decide_eq_true_eq]
    omega
  rw [e1, e2, List.nil_append]

/-- `histSize` counts the records passing the very filter the pagination
loop requests at cursor `c` (strictly greater than `c`, i.e. at least
`c + 1`). -/
lemma histSize_eq_filter_succ (u : List Row) (c : Nat) :
    histSize u c = (u.filter fun r => decide (c + 1 ≤ r.open_time)).length := by
  unfold histSize
  congr 1

/-- One pagination round shrinks the pending history by a full page:
`ceil((H - limit) / limit) + 1 = ceil(H / limit)` (in the
`(x + limit - 1) / limit` form of the ceiling), for non-empty pending
history. -/
lemma ceil_step {limit H : Nat} (hl : 0 < limit) (hH : 0 < H) :
    (H - limit + limit - 1) / limit + 1 = (H + limit - 1) / limit := by
  rcases le_or_lt H limit with h | h
  · have e0 : H - limit + limit - 1 = limit - 1 := by omega
    have e1 : H + limit - 1 = H - 1 + limit := by omega
    rw [e0, e1, Nat.add_div_right _ hl]
    have e2 : (limit - 1) / limit = 0 := Nat.div_eq_of_lt (by omega)
    have e3 : (H - 1) / limit = 0 := Nat.div_eq_of_lt (by omega)
    rw [e2, e3]
  · have e1 : H - limit + limit - 1 = H - limit - 1 + limit := by omega
    have e2 : H + limit - 1 = H - 1 + limit := by omega
    have e3 : H - 1 = H - limit - 1 + limit := by omega
    rw [e1, e2, Nat.add_div_right _ hl, Nat.add_div_right _ hl, e3,
      Nat.add_div_right _ hl]

/-- Full specification of the pagination loop over a strictly ascending
upstream history: with fuel at least `ceil(histSize / limit) + 1` the loop
converges, performs exactly `ceil(histSize / limit) + 1` fetches, and
accumulates exactly the upstream records strictly beyond the starting
cursor. -/
lemma gather_spec (upstream : List Row) (limit : Nat)
    (hs : upstream.Pairwise fun a b => a.open_time < b.open_time)
    (hl : 0 < limit) :
    ∀ fuel c, (histSize upstream c + limit - 1) / limit + 1 ≤ fuel →
      gather_new_candles upstream limit fuel c =
        some (upstream.filter fun r => decide (c + 1 ≤ r.open_time),
          (histSize upstream c + limit - 1) / limit + 1) := by
  intro fuel
  induction fuel with
  | zero => intro c h; exact absurd h (Nat.not_succ_le_zero _)
  | succ fuel ih =>
    intro c hb
    have hhist := histSize_eq_filter_succ upstream c
    simp only [gather_new_candles, get_batch]
    set s := upstream.filter fun r => decide (c + 1 ≤ r.open_time) with hsdef
    by_cases hse : s = []
    · rw [hse, List.take_nil, if_pos rfl]
      have hH0 : histSize upstream c = 0 := by rw [hhist, hse]; rfl
      have e : histSize upstream c + limit - 1 = limit - 1 := by omega
      have e2 : (limit - 1) / limit = 0 := Nat.div_eq_of_lt (by omega)
      rw [e, e2]
    · have hbatch_ne : s.take limit ≠ [] := by
        obtain ⟨a0, t0, hst0⟩ := List.exists_cons_of_ne_nil hse
        rw [hst0]
        cases limit with
        | zero => omega
        | succ l => simp
      have hmem_s : ∀ r ∈ s, c + 1 ≤ r.open_time := by
        intro r hr
        rw [hsdef] at hr
        have := (List.mem_filter.mp hr).2
        simpa using this
      set m := batchMax (s.take limit) with hmdef
      obtain ⟨a, t, hst⟩ := List.exists_cons_of_ne_nil hbatch_ne
      have ha_batch : a ∈ s.take limit := by
        rw [hst]; exact List.mem_cons_self a t
      have ha_s : a ∈ s := List.mem_of_mem_take ha_batch
      have hc_lt_m : c < m := by
        have h1 := hmem_s a ha_s
        have h2 : a.open_time ≤ m := batchMax_ge ha_batch
        omega
      have hm_ne : m ≠ c := by omega
      have hsp : s.Pairwise (fun a b => a.open_time < b.open_time) := by
        rw [hsdef]; exact hs.filter _
      have hcross : ∀ x ∈ s.take limit, ∀ b ∈ s.drop limit,
          x.open_time < b.open_time := by
        have hsp2 : (s.take limit ++ s.drop limit).Pairwise
            (fun a b => a.open_time < b.open_time) := by
          rw [List.take_append_drop]; exact hsp
        exact (List.pairwise_append.mp hsp2).2.2
      have hlow : ∀ b ∈ s.drop limit, m < b.open_time := by
        intro b hb'
        have hab := hcross a ha_batch b hb'
        exact batchMax_lt (by omega) fun x hx => hcross x hx b hb'
      have hupb : ∀ r ∈ s.take limit, r.open_time ≤ m := fun r hr =>
        batchMax_ge hr
      have hdrop : s.filter (fun r => decide (m + 1 ≤ r.open_time)) =
          s.drop limit := by
        have h := filter_between (s.take limit) (s.drop limit) m hupb hlow
        rwa [List.take_append_drop] at h
      have hfilter_m : upstream.filter (fun r => decide (m + 1 ≤ r.open_time)) =
          s.drop limit := by
        have h3 : ∀ r ∈ upstream,
            (decide (m + 1 ≤ r.open_time) && decide (c + 1 ≤ r.open_time)) =
              decide (m + 1 ≤ r.open_time) := by
          intro r _
          by_cases h : m + 1 ≤ r.open_time
          · simp [h, show c + 1 ≤ r.open_time by omega]
          · simp [h]
        calc upstream.filter (fun r => decide (m + 1 ≤ r.open_time))
            = upstream.filter
              (fun r => decide (m + 1 ≤ r.open_time) &&
                decide (c + 1 ≤ r.open_time)) := (List.filter_congr h3).symm
          _ = s.filter (fun r => decide (m + 1 ≤ r.open_time)) := by
              rw [hsdef]; exact (List.filter_filter _ _).symm
          _ = s.drop limit := hdrop
      have hhist_m : histSize upstream m = histSize upstream c - limit := by
        rw [histSize_eq_filter_succ upstream m, hfilter_m, List.length_drop,
          hhist]
      have hHpos : 0 < histSize upstream c := by
        rw [hhist]
        exact List.length_pos.mpr hse
      have hceil := ceil_step hl hHpos
      have hrec_bound : (histSize upstream m + limit - 1) / limit + 1 ≤ fuel := by
        rw [hhist_m]
        omega
      have hrec := ih m hrec_bound
      rw [hfilter_m, hhist_m] at hrec
      rw [if_neg hbatch_ne, if_neg hm_ne, hrec]
      show some (s.take limit ++ s.drop limit,
          (histSize upstream c - limit + limit - 1) / limit + 1 + 1) =
        some (s, (histSize upstream c + limit - 1) / limit + 1)
      rw [List.take_append_drop]
      have hsteps : (histSize upstream c - limit + limit - 1) / limit + 1 + 1 =
          (histSize upstream c + limit - 1) / limit + 1 := by omega
      rw [hsteps]

/-- A strictly `open_time`-ascending list has no duplicate `open_time`. -/
lemma hasDupOT_eq_false_of_pairwise {l : List Row}
    (h : l.Pairwise fun a b => a.open_time < b.open_time) :
    hasDupOT l = false := by
  induction l with
  | nil => rfl
  | cons a t ih =>
    rcases List.pairwise_cons.mp h with ⟨ha, ht⟩
    have h1 : (t.any fun x => x.open_time == a.open_time) = false := by
      rw [List.any_eq_false]
      intro x hx
      have := ha x hx
      rw [beq_iff_eq]
      omega
    simp [hasDupOT, h1, ih ht]

/-- On a dataframe without duplicate `open_time` values `quick_clean` is the
identity (and its integrity assertion passes). -/
lemma quick_clean_of_no_dup {df : List Row} (h : hasDupOT df = false) :
    quick_clean df = some df := by
  simp [quick_clean, h]

/-- Rows surviving `dropDupOT` avoid every already-seen key. -/
lemma dropDupOT_not_seen {seen : List Nat} {df : List Row} {r : Row}
    (h : r ∈ dropDupOT seen df) : r.open_time ∉ seen := by
  induction df generalizing seen with
  | nil => cases h
  | cons a t ih =>
    by_cases ha : a.open_time ∈ seen
    · rw [dropDupOT, if_pos ha] at h
      exact ih h
    · rw [dropDupOT, if_neg ha] at h
      rcases List.mem_cons.mp h with rfl | h'
      · exact ha
      · have := ih h'
        intro hr
        exact this (List.mem_cons_of_mem _ hr)

/-- `dropDupOT` leaves no duplicate `open_time` values behind. -/
lemma hasDupOT_dropDupOT (seen : List Nat) (df : List Row) :
    hasDupOT (dropDupOT seen df) = false := by
  induction df generalizing seen with
  | nil => rfl
  | cons a t ih =>
    by_cases ha : a.open_time ∈ seen
    · rw [dropDupOT, if_pos ha]
      exact ih seen
    · rw [dropDupOT, if_neg ha]
      have h1 : ((dropDupOT (a.open_time :: seen) t).any
          fun x => x.open_time == a.open_time) = false := by
        rw [List.any_eq_false]
        intro x hx
        have := dropDupOT_not_seen hx
        rw [beq_iff_eq]
        intro he
        exact this (by rw [he]; exact List.mem_cons_self _ _)
      simp [hasDupOT, h1, ih]

/-- `quick_clean` always succeeds: its integrity assertion cannot fire after
its own deduplication step. -/
lemma quick_clean_eq_some (df : List Row) :
    quick_clean df = some (if hasDupOT df then dropDupOT [] df else df) := by
  by_cases h : hasDupOT df
  · simp [quick_clean, h, hasDupOT_dropDupOT]
  · simp [quick_clean, h]

/-- Membership in a polished dataframe: every output row is the compression
of a well-formed input row (`close_time - open_time = 59999 ms`), and with
`shave` on its `open_time` lies before the start of the current day. -/
lemma polish_df_mem {todayStart : Nat} {shave : Bool} {df : List Row}
    {q : PRow} (h : q ∈ polish_df todayStart shave df) :
    ∃ r ∈ df, (r.open_time : Int) - (r.close_time : Int) = -59999 ∧
      q = set_dtypes_compressed r ∧ (shave = true → q.open_time < todayStart) := by
  unfold polish_df at h
  rcases hsh : shave with _ | _
  · rw [hsh] at h
    simp only [if_neg Bool.false_ne_true] at h
    rcases List.mem_map.mp h with ⟨r, hr, hrq⟩
    rcases List.mem_filter.mp hr with ⟨hrdf, hwf⟩
    exact ⟨r, hrdf, by simpa using hwf, hrq.symm, by simp⟩
  · rw [hsh] at h
    simp only [if_pos rfl] at h
    rcases List.mem_filter.mp h with ⟨h1, h2⟩
    rcases List.mem_map.mp h1 with ⟨r, hr, hrq⟩
    rcases List.mem_filter.mp hr with ⟨hrdf, hwf⟩
    refine ⟨r, hrdf, by simpa using hwf, hrq.symm, fun _ => ?_⟩
    simpa using h2

/-- Conversely, with `shave` off every well-formed input row appears,
compressed, in the polished output. -/
lemma polish_df_mem_of_wf {todayStart : Nat} {df : List Row} {r : Row}
    (hr : r ∈ df) (hwf : (r.open_time : Int) - (r.close_time : Int) = -59999) :
    set_dtypes_compressed r ∈ polish_df todayStart false df := by
  unfold polish_df
  simp only [if_neg Bool.false_ne_true]
  exact List.mem_map.mpr ⟨r, List.mem_filter.mpr ⟨hr, by simpa using hwf⟩, rfl⟩

/-- With `shave` off, polishing an all-well-formed dataframe compresses every
row and keeps them all, in order. -/
lemma polish_df_all_wf {todayStart : Nat} {df : List Row}
    (hwf : ∀ r ∈ df, (r.open_time : Int) - (r.close_time : Int) = -59999) :
    polish_df todayStart false df = df.map set_dtypes_compressed := by
  unfold polish_df
  simp only [if_neg Bool.false_ne_true]
  congr 1
  rw [List.filter_eq_self]
  intro r hr
  simpa using hwf r hr

/-- `maxOpen` bounds every member of a persisted dataset. -/
lemma maxOpen_ge {d : List PRow} {q : PRow} (h : q ∈ d) :
    q.open_time ≤ maxOpen d := by
  induction d with
  | nil => cases h
  | cons a t ih =>
    rcases List.mem_cons.mp h with rfl | h'
    · exact Nat.le_max_left _ _
    · exact Nat.le_trans (ih h') (Nat.le_max_right _ _)

/-- `maxOpen` over a concatenation is the maximum of the two parts. -/
lemma maxOpen_append (a b : List PRow) :
    maxOpen (a ++ b) = max (maxOpen a) (maxOpen b) := by
  induction a with
  | nil => simp [maxOpen]
  | cons x t ih => simp [maxOpen, ih, Nat.max_assoc]

/-- A per-pair run against a readable dataset for which upstream holds
nothing beyond the cursor converges immediately: the dataset is written back
unchanged and the reported new-candle count is 0. -/
lemma run_no_new (upstream : List Row) (ds : List PRow)
    (todayStart limit fuel : Nat) (shave : Bool) (hfuel : 1 ≤ fuel)
    (hempty : upstream.filter (fun r =>
        decide ((get_parquet_info (ParquetFile.ok ds)).1 + 1 ≤ r.open_time)) = []) :
    all_candles_to_parquet fuel todayStart shave limit upstream
      (ParquetFile.ok ds) = some (ds, 0) := by
  obtain ⟨f, rfl⟩ : ∃ f, fuel = f + 1 := ⟨fuel - 1, by omega⟩
  simp only [all_candles_to_parquet, gather_new_candles, get_batch, hempty,
    List.take_nil, if_pos rfl]
  simp [quick_clean, hasDupOT, append_raw_to_parquet, polish_df]

/-- A per-pair run against a readable dataset, over a strictly ascending and
everywhere well-formed upstream with trimming off, appends the compressed
pending records and reports their number. -/
lemma run_step (upstream : List Row) (stored : List PRow)
    (limit todayStart : Nat) (hl : 0 < limit)
    (hs : upstream.Pairwise fun a b => a.open_time < b.open_time)
    (hwf : ∀ r ∈ upstream, (r.open_time : Int) - (r.close_time : Int) = -59999) :
    all_candles_to_parquet
        ((histSize upstream (get_parquet_info (ParquetFile.ok stored)).1 + limit - 1) /
          limit + 1)
        todayStart false limit upstream (ParquetFile.ok stored) =
      some (stored ++
          (upstream.filter fun r =>
            decide ((get_parquet_info (ParquetFile.ok stored)).1 + 1 ≤ r.open_time)).map
            set_dtypes_compressed,
        (upstream.filter fun r =>
          decide ((get_parquet_info (ParquetFile.ok stored)).1 + 1 ≤ r.open_time)).length) := by
  have hg := gather_spec upstream limit hs hl
    ((histSize upstream (get_parquet_info (ParquetFile.ok stored)).1 + limit - 1) /
      limit + 1)
    ((get_parquet_info (ParquetFile.ok stored)).1) (le_refl _)
  have hfp := hs.filter (fun r =>
    decide ((get_parquet_info (ParquetFile.ok stored)).1 + 1 ≤ r.open_time))
  have hqc := quick_clean_of_no_dup (hasDupOT_eq_false_of_pairwise hfp)
  have hpol : polish_df todayStart false
      (upstream.filter fun r =>
        decide ((get_parquet_info (ParquetFile.ok stored)).1 + 1 ≤ r.open_time)) =
      (upstream.filter fun r =>
        decide ((get_parquet_info (ParquetFile.ok stored)).1 + 1 ≤ r.open_time)).map
        set_dtypes_compressed :=
    polish_df_all_wf fun r hr => hwf r (List.mem_filter.mp hr).1
  simp only [all_candles_to_parquet]
  rw [hg]
  simp only [append_raw_to_parquet]
  rw [hqc]
  dsimp only
  rw [hpol]

/-- A sample persisted row with `open_time = t` and every other column 0. -/
def pRowAt (t : Nat) : PRow :=
  { open_time := t, open_ := 0, high := 0, low := 0, close := 0, volume := 0
    quote_asset_volume := 0, number_of_trades := 0
    taker_buy_base_asset_volume := 0, taker_buy_quote_asset_volume := 0 }

/-- A three-candle upstream history (one-minute candles at 1 ms, 2 ms,
3 ms). -/
def up3 : List Row := [rowAt 1 60000 5, rowAt 2 60001 6, rowAt 3 60002 7]

/-- A raw dataframe row whose `volume` cell is n/a while every other cell is
populated. -/
def nRowMissingVolume : NRow :=
  { open_time := some 0, open_ := some 0, high := some 0, low := some 0
    close := some 0, volume := none, close_time := some 59999
    quote_asset_volume := some 0, number_of_trades := some 0
    taker_buy_base_asset_volume := some 0
    taker_buy_quote_asset_volume := some 0, ignore := some 0 }

/-- Claim C1: for every finite upstream history (strictly ascending by
`open_time`, as the upstream key is unique) and every starting cursor, the
pagination loop of `gather_new_candles` converges — with any fuel covering
the bound it returns its accumulated batches, namely exactly the upstream
records strictly beyond the cursor — after exactly
`ceil(history_size / limit) + 1` fetch steps, where
`history_size = histSize upstream c` counts the upstream candles with
`open_time` strictly greater than the cursor; in particular at most
`ceil(history_size / limit) + 1` fetches happen.  The batches the modelled
endpoint serves contain at most `limit` records, ascending, all at or after
the requested start time, and the loop's cursor strictly increases while it
runs. -/
theorem c1_pagination_convergence (upstream : List Row) (limit : Nat)
    (hs : upstream.Pairwise fun a b => a.open_time < b.open_time)
    (hl : 0 < limit) (c fuel : Nat)
    (hfuel : (histSize upstream c + limit - 1) / limit + 1 ≤ fuel) :
    gather_new_candles upstream limit fuel c =
      some (upstream.filter fun r => decide (c + 1 ≤ r.open_time),
        (histSize upstream c + limit - 1) / limit + 1) :=
  gather_spec upstream limit hs hl fuel c hfuel

/-- Witness for C1: three upstream candles, page size 2, cursor 0 — the
loop converges in `ceil(3 / 2) + 1 = 3` fetches and returns all three
candles. -/
theorem c1_pagination_convergence_witness :
    (up3.Pairwise fun a b => a.open_time < b.open_time) ∧ 0 < 2 ∧
    (histSize up3 0 + 2 - 1) / 2 + 1 ≤ 3 ∧
    gather_new_candles up3 2 3 0 =
      some (up3.filter fun r => decide (0 + 1 ≤ r.open_time),
        (histSize up3 0 + 2 - 1) / 2 + 1) :=
  ⟨by decide, by decide, by decide,
    c1_pagination_convergence up3 2 (by decide) (by decide) 0 3 (by decide)⟩

/-- Claim C2 (the code contradicts it): `quick_clean` does not sort — the
source computes `df.sort_values(by=['open_time'], ascending=False)` and
discards the result (and even the discarded sort is descending, against its
own "oldest first" comment) — so on a raw batch whose rows arrive in
descending order the cleaned output is returned in the original descending
order, not ascending as claimed. -/
theorem c2_quick_clean_leaves_input_order :
    quick_clean [rowAt 2 60001 0, rowAt 1 60000 0] =
      some [rowAt 2 60001 0, rowAt 1 60000 0] ∧
    strictlyAscOT [rowAt 2 60001 0, rowAt 1 60000 0] = false := by
  constructor
  · rfl
  · rfl

/-- Counterexample to claim C3: merging a one-record dataset with a
one-record new batch carrying the same `open_time` (N = 1, M = 1, K = 1)
yields 2 records, not `N + M - K = 1`: `append_raw_to_parquet` never
deduplicates against the existing records. -/
theorem c3_merge_overlap_counterexample :
    (append_raw_to_parquet 0 false [rowAt 1 60000 0]
        (ParquetFile.ok [set_dtypes_compressed (rowAt 1 60000 0)])).length ≠
      1 + 1 - 1 := by
  decide

/-- Claim C3 as amended: merging an existing dataset of N records with a
canonical (polished) batch of M records yields exactly `N + M` records —
the polished batch is appended verbatim, no dedup/sort/trim is re-applied
to the union, and every merged record comes from the existing dataset or
the polished batch (overlapping `open_time` values are simply retained
twice). -/
theorem c3_merge_append_length (todayStart : Nat) (shave : Bool)
    (df : List Row) (e : List PRow) :
    (append_raw_to_parquet todayStart shave df (ParquetFile.ok e)).length =
      e.length + (polish_df todayStart shave df).length ∧
    ∀ q, q ∈ append_raw_to_parquet todayStart shave df (ParquetFile.ok e) ↔
      q ∈ e ∨ q ∈ polish_df todayStart shave df := by
  constructor
  · simp [append_raw_to_parquet]
  · intro q
    simp [append_raw_to_parquet]

/-- Claim C5: a record whose `close_time - open_time` differs from
59999 ms (the one-minute duration less 1 ms) never appears in the output of
`polish_df` — every polished row is the compression of an input row with
`close_time - open_time = 59999` — and conversely (trimming off) every such
well-formed record survives, the `close_time` and `ignore` fields being
dropped by the compression. -/
theorem c5_malformed_never_polished :
    (∀ (todayStart : Nat) (shave : Bool) (df : List Row) (q : PRow),
      q ∈ polish_df todayStart shave df →
        ∃ r ∈ df, (r.close_time : Int) - (r.open_time : Int) = 59999 ∧
          q = set_dtypes_compressed r) ∧
    (∀ (todayStart : Nat) (df : List Row) (r : Row), r ∈ df →
      (r.close_time : Int) - (r.open_time : Int) = 59999 →
        set_dtypes_compressed r ∈ polish_df todayStart false df) := by
  constructor
  · intro todayStart shave df q h
    rcases polish_df_mem h with ⟨r, hr, hwf, hq, _⟩
    exact ⟨r, hr, by omega, hq⟩
  · intro todayStart df r hr hwf
    exact polish_df_mem_of_wf hr (by omega)

/-- Witness for C5: a single well-formed candle passes the filter and its
compression is the whole polished output. -/
theorem c5_malformed_never_polished_witness :
    (rowAt 1 60000 5 ∈ [rowAt 1 60000 5]) ∧
    ((60000 : Int) - (1 : Int) = 59999) ∧
    set_dtypes_compressed (rowAt 1 60000 5) ∈ polish_df 0 false [rowAt 1 60000 5] ∧
    ∃ r ∈ [rowAt 1 60000 5], (r.close_time : Int) - (r.open_time : Int) = 59999 ∧
      set_dtypes_compressed (rowAt 1 60000 5) = set_dtypes_compressed r :=
  ⟨by decide, by decide,
    c5_malformed_never_polished.2 0 [rowAt 1 60000 5] (rowAt 1 60000 5)
      (by decide) (by decide),
    c5_malformed_never_polished.1 0 false [rowAt 1 60000 5]
      (set_dtypes_compressed (rowAt 1 60000 5))
      (c5_malformed_never_polished.2 0 [rowAt 1 60000 5] (rowAt 1 60000 5)
        (by decide) (by decide))⟩

/-- Claim C6 (the code contradicts it): `assert_integrity` accepts a
dataframe containing a row with a null field — its first assertion is
`df.isna().all(axis=1).any() == False`, which fires only when some row is
null in EVERY column, so a row with a single n/a cell (here `volume`)
passes the integrity check, against the claim (and the function's own
docstring) that any null field is rejected. -/
theorem c6_assert_integrity_accepts_partial_null :
    rowAnyNull nRowMissingVolume = true ∧ rowAllNull nRowMissingVolume = false ∧
    assert_integrity [nRowMissingVolume] = true := by
  decide

/-- Claim C7 (the code contradicts it): `write_to_csv` returns
`len(df.index) - old_lines` where `df` holds only the newly fetched
(quick-cleaned) rows, not "total record count after the merge minus the
pre-merge count".  With 5 persisted rows and 3 new candles the merge leaves
`5 + 3` rows, so the claimed report is `(5 + 3) - 5 = 3` new candles, but
the code computes `3 - 5 = -2` — non-positive, so `main` prints "Already up
to date" although 3 rows were appended. -/
theorem c7_write_to_csv_count_bug :
    write_to_csv_count [[rowAt 1 60000 0], [rowAt 2 60001 0], [rowAt 3 60002 0]]
        5 = some (-2) ∧
    ((5 : Int) + 3) - 5 = 3 ∧ (-2 : Int) ≠ 3 := by
  decide

/-- Claim C9: `set_dtypes_compressed` stores `number_of_trades` as uint16,
so every polished record persists the upstream count modulo 2^16; counts
below 2^16 round-trip exactly and any count of 65536 or more is silently
persisted with a different (wrapped) value. -/
theorem c9_trades_uint16_wrap :
    (∀ (todayStart : Nat) (shave : Bool) (df : List Row) (q : PRow),
      q ∈ polish_df todayStart shave df →
        ∃ r ∈ df, q.number_of_trades = r.number_of_trades % 65536) ∧
    (∀ r : Row, r.number_of_trades < 65536 →
      (set_dtypes_compressed r).number_of_trades = r.number_of_trades) ∧
    (∀ r : Row, 65536 ≤ r.number_of_trades →
      (set_dtypes_compressed r).number_of_trades ≠ r.number_of_trades) := by
  refine ⟨?_, ?_, ?_⟩
  · intro todayStart shave df q h
    rcases polish_df_mem h with ⟨r, hr, _, hq, _⟩
    exact ⟨r, hr, by rw [hq]; rfl⟩
  · intro r h
    exact Nat.mod_eq_of_lt h
  · intro r h
    have := Nat.mod_lt r.number_of_trades (show 0 < 65536 by omega)
    simp only [set_dtypes_compressed]
    omega

/-- Witness for C9: a candle with 70000 trades is persisted with
`70000 % 65536 = 4464` trades; a candle with 123 trades round-trips. -/
theorem c9_trades_uint16_wrap_witness :
    (set_dtypes_compressed (rowAt 1 60000 70000) ∈
        polish_df 0 false [rowAt 1 60000 70000]) ∧
    (123 < 65536) ∧ (65536 ≤ 70000) ∧
    (∃ r ∈ [rowAt 1 60000 70000],
      (set_dtypes_compressed (rowAt 1 60000 70000)).number_of_trades =
        r.number_of_trades % 65536) ∧
    (set_dtypes_compressed (rowAt 1 60000 123)).number_of_trades = 123 ∧
    (set_dtypes_compressed (rowAt 1 60000 70000)).number_of_trades ≠ 70000 :=
  ⟨by decide, by decide, by decide,
    c9_trades_uint16_wrap.1 0 false [rowAt 1 60000 70000]
      (set_dtypes_compressed (rowAt 1 60000 70000)) (by decide),
    c9_trades_uint16_wrap.2.1 (rowAt 1 60000 123) (by decide),
    c9_trades_uint16_wrap.2.2 (rowAt 1 60000 70000) (by decide)⟩

/-- Claim C10: a per-pair dataset file that exists but cannot be read (any
`OSError`) is treated exactly like a missing one — `get_parquet_info`
reports cursor 0 (so the full history is re-fetched from the beginning),
the merge writes only the newly fetched records (the unreadable prior
contents are silently discarded), and a whole run behaves identically on an
unreadable and on an absent file. -/
theorem c10_unreadable_treated_as_missing :
    get_parquet_info ParquetFile.unreadable = (0, 0) ∧
    (∀ (todayStart : Nat) (shave : Bool) (df : List Row),
      append_raw_to_parquet todayStart shave df ParquetFile.unreadable =
        polish_df todayStart shave df) ∧
    (∀ (fuel todayStart : Nat) (shave : Bool) (limit : Nat)
        (upstream : List Row),
      all_candles_to_parquet fuel todayStart shave limit upstream
          ParquetFile.unreadable =
        all_candles_to_parquet fuel todayStart shave limit upstream
          ParquetFile.absent) :=
  ⟨rfl, fun _ _ _ => rfl, fun _ _ _ _ _ => rfl⟩

/-- Counterexample to claim C4: the per-pair run is not idempotent in its
report when the upstream tail is malformed.  Upstream holds a single
malformed candle (`close_time - open_time = 98 ms`); starting from an empty
dataset the run fetches it, reports 1 new candle, yet persists nothing
(`polish_df` drops it) — so the identical second run (same empty dataset,
no new upstream data) again reports 1, not the claimed 0. -/
theorem c4_malformed_refetch_counterexample :
    all_candles_to_parquet 3 1000000 false 1000 [rowAt 1 99 0]
        (ParquetFile.ok []) = some ([], 1) ∧ (1 : Nat) ≠ 0 := by
  decide

/-- Claim C4 as amended: (a) if upstream has no record with `open_time`
beyond the persisted cursor, a run returns the dataset unchanged with a
new-record count of 0 (reported as already up to date); and (b) when every
upstream record is well formed (survives `polish_df`; trimming off, as in
`main.py`), running the pipeline twice with no new upstream data leaves the
dataset unchanged and reports 0 new records the second time. -/
theorem c4_idempotent_amended (upstream : List Row) (ds0 : List PRow)
    (limit todayStart : Nat) (hl : 0 < limit)
    (hs : upstream.Pairwise fun a b => a.open_time < b.open_time)
    (hwf : ∀ r ∈ upstream, (r.open_time : Int) - (r.close_time : Int) = -59999) :
    (∀ (fuel : Nat) (ds : List PRow), 1 ≤ fuel →
      upstream.filter (fun r =>
        decide ((get_parquet_info (ParquetFile.ok ds)).1 + 1 ≤ r.open_time)) = [] →
      all_candles_to_parquet fuel todayStart false limit upstream
        (ParquetFile.ok ds) = some (ds, 0)) ∧
    ∃ ds1 n1,
      all_candles_to_parquet
          ((histSize upstream (get_parquet_info (ParquetFile.ok ds0)).1 + limit - 1) /
            limit + 1)
          todayStart false limit upstream (ParquetFile.ok ds0) = some (ds1, n1) ∧
      all_candles_to_parquet 1 todayStart false limit upstream
          (ParquetFile.ok ds1) = some (ds1, 0) := by
  constructor
  · intro fuel ds hf he
    exact run_no_new upstream ds todayStart limit fuel false hf he
  · set c0 := (get_parquet_info (ParquetFile.ok ds0)).1 with hc0
    set new := upstream.filter fun r => decide (c0 + 1 ≤ r.open_time) with hnewdef
    set ds1 := ds0 ++ new.map set_dtypes_compressed with hds1def
    refine ⟨ds1, new.length, ?_, ?_⟩
    · exact run_step upstream ds0 limit todayStart hl hs hwf
    · apply run_no_new upstream ds1 todayStart limit 1 false (le_refl 1)
      rw [List.filter_eq_nil_iff]
      intro u hu
      simp only [decide_eq_true_eq]
      intro hcontra
      have hle : u.open_time ≤ (get_parquet_info (ParquetFile.ok ds1)).1 := by
        by_cases hnew_u : c0 + 1 ≤ u.open_time
        · have hunew : u ∈ new := by
            rw [hnewdef]
            exact List.mem_filter.mpr ⟨hu, by simpa using hnew_u⟩
          have humem : set_dtypes_compressed u ∈ ds1 := by
            rw [hds1def]
            exact List.mem_append_right _ (List.mem_map_of_mem _ hunew)
          have hne : ds1 ≠ [] := fun h0 => List.not_mem_nil _ (h0 ▸ humem)
          have hgpi : (get_parquet_info (ParquetFile.ok ds1)).1 = maxOpen ds1 := by
            simp [get_parquet_info, hne]
          rw [hgpi]
          exact maxOpen_ge humem
        · have hle0 : u.open_time ≤ c0 := by omega
          by_cases hne : ds1 = []
          · rcases List.append_eq_nil.mp (hds1def.symm.trans hne) with ⟨h1, _⟩
            have hc00 : c0 = 0 := by rw [hc0, h1]; rfl
            rw [hne]
            simp [get_parquet_info]
            omega
          · have hgpi : (get_parquet_info (ParquetFile.ok ds1)).1 = maxOpen ds1 := by
              simp [get_parquet_info, hne]
            rw [hgpi, hds1def, maxOpen_append]
            by_cases hd0 : ds0 = []
            · have hc00 : c0 = 0 := by rw [hc0, hd0]; rfl
              exact le_trans (by omega) (Nat.zero_le _)
            · have he0 : c0 = maxOpen ds0 := by
                rw [hc0]
                simp [get_parquet_info, hd0]
              calc u.open_time ≤ c0 := hle0
                _ = maxOpen ds0 := he0
                _ ≤ max (maxOpen ds0) (maxOpen (new.map set_dtypes_compressed)) :=
                    Nat.le_max_left _ _
      omega

/-- Witness for C4 (amended): a one-candle well-formed upstream over an
empty dataset — the first run writes the candle and the second run returns
it unchanged with 0 new records. -/
theorem c4_idempotent_amended_witness :
    (0 : Nat) < 1000 ∧
    ([rowAt 1 60000 5].Pairwise fun a b => a.open_time < b.open_time) ∧
    (∀ r ∈ [rowAt 1 60000 5],
      (r.open_time : Int) - (r.close_time : Int) = -59999) ∧
    ∃ ds1 n1,
      all_candles_to_parquet
          ((histSize [rowAt 1 60000 5]
              (get_parquet_info (ParquetFile.ok [])).1 + 1000 - 1) / 1000 + 1)
          7 false 1000 [rowAt 1 60000 5] (ParquetFile.ok []) = some (ds1, n1) ∧
      all_candles_to_parquet 1 7 false 1000 [rowAt 1 60000 5]
          (ParquetFile.ok ds1) = some (ds1, 0) :=
  ⟨by decide, by decide, by decide,
    (c4_idempotent_amended [rowAt 1 60000 5] [] 1000 7 (by decide) (by decide)
      (by decide)).2⟩

/-- Counterexample to claim C8: with trimming enabled, a record carried over
from a previous run whose `open_time` is not before today's midnight
(here equal to it) survives the merge untouched — `append_raw_to_parquet`
never re-trims the existing dataset, so the claimed invariant over
carried-over records fails. -/
theorem c8_trim_carryover_counterexample :
    pRowAt 100 ∈ append_raw_to_parquet 100 true [] (ParquetFile.ok [pRowAt 100]) ∧
    ¬ (pRowAt 100).open_time < 100 := by
  decide

/-- Claim C8 as amended: with trimming enabled, every record of the merged
dataset either was carried over from the previously persisted file or is a
newly fetched record with `open_time` strictly before the start of the
current day; the trim bound is enforced for the new records only (so the
invariant holds for whole datasets only when every earlier run also ran
with trimming enabled). -/
theorem c8_trim_applies_to_new_records (todayStart : Nat) (df : List Row)
    (f : ParquetFile) (q : PRow)
    (h : q ∈ append_raw_to_parquet todayStart true df f) :
    (∃ e, f = ParquetFile.ok e ∧ q ∈ e) ∨ q.open_time < todayStart := by
  cases f with
  | ok e =>
    simp only [append_raw_to_parquet] at h
    rcases List.mem_append.mp h with he | hp
    · exact Or.inl ⟨e, rfl, he⟩
    · right
      rcases polish_df_mem hp with ⟨r, _, _, _, htrim⟩
      exact htrim rfl
  | absent =>
    simp only [append_raw_to_parquet] at h
    right
    rcases polish_df_mem h with ⟨r, _, _, _, htrim⟩
    exact htrim rfl
  | unreadable =>
    simp only [append_raw_to_parquet] at h
    right
    rcases polish_df_mem h with ⟨r, _, _, _, htrim⟩
    exact htrim rfl

/-- Witness for C8 (amended): a fresh well-formed candle fetched with
trimming on lands in the merged dataset and is indeed dated before today's
midnight. -/
theorem c8_trim_applies_to_new_records_witness :
    (set_dtypes_compressed (rowAt 1 60000 0) ∈
      append_raw_to_parquet 100 true [rowAt 1 60000 0] ParquetFile.absent) ∧
    ((∃ e, ParquetFile.absent = ParquetFile.ok e ∧
        set_dtypes_compressed (rowAt 1 60000 0) ∈ e) ∨
      (set_dtypes_compressed (rowAt 1 60000 0)).open_time < 100) :=
  ⟨by decide,
    c8_trim_applies_to_new_records 100 [rowAt 1 60000 0] ParquetFile.absent
      (set_dtypes_compressed (rowAt 1 60000 0)) (by decide)⟩

end CandlestickRetriever
